import Mathlib

set_option maxRecDepth 4000

namespace Owl

/-!
Shallow embedding of the owl repository's locally-authored logic:

* `src/owl/common/gradio_messager.py` — the `GradioMessenger` content broker
  (per-category FIFO queues and bounded histories, drain/peek, formatted
  snapshots, clear).
* `src/examples/run.py` — the `CustomWebToolkit` browsing loop
  (`browser_simulation`, and the truncated-action repair logic of `_observe`).
* `src/owl/webapp_zh.py` — `validate_input` and the input-validation path of
  `run_owl`.

Python dicts/queues become Lean functions and lists; machine-level effects
(LLM calls, the browser, the filesystem, the clock) are oracle parameters.
-/

/-- The three content categories.  In the Python code these are the fixed keys
of `message_queues` / `chat_histories`, created once in `_initialize` and never
removed, so a string is a valid key iff it is one of these three. -/
inductive Category
  | text
  | image
  | html
deriving DecidableEq

/-- The key string of a category. -/
def Category.name : Category → String
  | .text => "text"
  | .image => "image"
  | .html => "html"

/-- Membership test for the category dictionaries: `content_type in
self.message_queues` (equivalently `in self.chat_histories`). -/
def catOf? (s : String) : Option Category :=
  if s = "text" then some Category.text
  else if s = "image" then some Category.image
  else if s = "html" then some Category.html
  else none

/-- A message's `content` value: either a Python `str`, or any other object
(PIL image, numpy array, ...), of which the code only observes its `str()`
form and its truthiness. -/
inductive Content
  | str (s : String)
  | obj (shown : String) (truthy : Bool)
deriving DecidableEq

/-- Python `str(content)`. -/
def Content.toStr : Content → String
  | .str s => s
  | .obj shown _ => shown

/-- Python truthiness of a content value (`if content:`); an empty string is
falsy. -/
def Content.truthy : Content → Bool
  | .str s => ¬ (s = "")
  | .obj _ t => t

/-- The message dict built by `send_message`: `{"role": ..., "content": ...,
"timestamp": ..., "content_type": ...}`.  The `content_type` field is written
after the fallback-to-"text" normalisation, so it is always a valid category. -/
structure Message where
  role : String
  content : Content
  timestamp : Nat
  content_type : Category
deriving DecidableEq

/-- The broker state: per-category FIFO queue (front = head of the list,
`put` appends at the tail) and per-category history list. -/
structure GradioMessenger where
  message_queues : Category → List Message
  chat_histories : Category → List Message

/-- Point update of a category-indexed dictionary. -/
def updateCat (f : Category → List Message) (c : Category) (l : List Message) :
    Category → List Message :=
  fun c' => if c' = c then l else f c'

/-- The freshly `_initialize`d broker: all queues and histories empty. -/
def GradioMessenger.initial : GradioMessenger :=
  ⟨fun _ => [], fun _ => []⟩

/-- `GradioMessenger.send_message` (gradio_messager.py lines 32-58; the
logging tail has no effect on broker state).  An unknown `content_type` falls
back to `"text"`; the message is appended to the category's queue and history,
and the history is truncated to its last 100 entries (`[-100:]`) when its
length exceeds 100. -/
def GradioMessenger.send_message (s : GradioMessenger) (role : String)
    (content : Content) (timestamp : Nat) (content_type : String) :
    GradioMessenger :=
  let ct := (catOf? content_type).getD Category.text
  let msg : Message := ⟨role, content, timestamp, ct⟩
  let q := s.message_queues ct ++ [msg]
  let h := s.chat_histories ct ++ [msg]
  let h := if h.length > 100 then h.drop (h.length - 100) else h
  ⟨updateCat s.message_queues ct q, updateCat s.chat_histories ct h⟩

/-- The `while not empty and len(messages) < max_messages` loop of
`get_messages`: pop the queue's front; append it to `messages`; when
`clear_queue` is false, also re-`put` it at the queue's tail.  Returns the
collected messages and the final queue.  `fuel` bounds the number of
iterations so the definition is structural; each iteration either removes a
queue entry for good (`clear_queue = true`) or grows `messages` towards
`max_messages`, so `q.length + max_messages` fuel is always enough. -/
def getLoop (clear_queue : Bool) (max_messages : Nat) :
    Nat → List Message → List Message → List Message × List Message
  | 0, q, msgs => (msgs, q)
  | _ + 1, [], msgs => (msgs, [])
  | fuel + 1, m :: rest, msgs =>
    if msgs.length < max_messages then
      if clear_queue then
        getLoop clear_queue max_messages fuel rest (msgs ++ [m])
      else
        getLoop clear_queue max_messages fuel (rest ++ [m]) (msgs ++ [m])
    else (msgs, m :: rest)

/-- `GradioMessenger.get_messages` (lines 72-102).  Unknown category returns
`[]` and leaves the state alone.  Otherwise the queue is drained (or rotated,
when `clear_queue` is false) by `getLoop`, and every returned message that is
not already in the category's history is appended to it (no cap re-applied). -/
def GradioMessenger.get_messages (s : GradioMessenger) (max_messages : Nat)
    (clear_queue : Bool) (content_type : String) :
    List Message × GradioMessenger :=
  match catOf? content_type with
  | none => ([], s)
  | some c =>
    let q := s.message_queues c
    let r := getLoop clear_queue max_messages (q.length + max_messages) q []
    let h := r.1.foldl (fun h m => if m ∈ h then h else h ++ [m])
      (s.chat_histories c)
    (r.1, ⟨updateCat s.message_queues c r.2, updateCat s.chat_histories c h⟩)

/-- `GradioMessenger.clear_messages` (lines 232-246): every queue is drained
to empty and every history is reset to `[]`. -/
def GradioMessenger.clear_messages (_ : GradioMessenger) : GradioMessenger :=
  ⟨fun _ => [], fun _ => []⟩

/-- Python slice `l[-k:]`: the last `k` elements — except that `l[-0:]` is the
whole list. -/
def pyLastSlice (k : Nat) (l : List α) : List α :=
  if k = 0 then l else l.drop (l.length - k)

/-- Ambient-system oracles used by `get_formatted_chat_history`:
`os.path.exists`, `os.path.isabs`, `os.path.abspath` and
`time.strftime("%Y-%m-%d %H:%M:%S", time.localtime(ts))`. -/
structure Env where
  pathExists : String → Bool
  isabs : String → Bool
  abspath : String → String
  strftime : Nat → String

/-- The image extensions recognised by the image branch
(`['.png', '.jpg', '.jpeg', '.gif', '.webp']`). -/
def imageExts : List String :=
  [".png", ".jpg", ".jpeg", ".gif", ".webp"]

/-- Python's substring test `needle in hay`, on character lists. -/
def listContainsSub (needle : List Char) : List Char → Bool
  | [] => needle.isEmpty
  | c :: t => needle.isPrefixOf (c :: t) || listContainsSub needle t

/-- Python's substring test `needle in hay` for strings. -/
def pySubstr (needle hay : String) : Bool :=
  listContainsSub needle.data hay.data

/-- Python `s.startswith(pre)`. -/
def pyStartsWith (s pre : String) : Bool :=
  pre.data.isPrefixOf s.data

/-- Python `s.endswith(suf)`. -/
def pyEndsWith (s suf : String) : Bool :=
  suf.data.reverse.isPrefixOf s.data.reverse

/-- Python `s.lower()` (ASCII case folding, all the code feeds it). -/
def pyToLower (s : String) : String :=
  String.mk (s.data.map Char.toLower)

/-- One step of the merge loops of `get_formatted_chat_history` (lines
133-148): the accumulator is `(all_messages, seen_contents)`; a message is
kept iff `str(msg.get("content",""))` has not been seen yet. -/
def dedupStep (acc : List Message × List String) (msg : Message) :
    List Message × List String :=
  if msg.content.toStr ∈ acc.2 then acc
  else (acc.1 ++ [msg], acc.2 ++ [msg.content.toStr])

/-- The two merge loops: first over `recent_messages`, then over
`new_messages`, sharing the `seen_contents` set. -/
def dedupMerge (recent news : List Message) : List Message :=
  (news.foldl dedupStep (recent.foldl dedupStep ([], []))).1

/-- Lines 126-148 of `get_formatted_chat_history`: take the last
`max_messages` history entries, peek the queue
(`get_messages(max_messages, clear_queue=False, ...)`), and merge the two
de-duplicated by stringified content.  Returns the merged `all_messages`
together with the broker state as mutated by the embedded `get_messages`
call. -/
def snapshotMessages (s : GradioMessenger) (max_messages : Nat) (c : Category) :
    List Message × GradioMessenger :=
  let recent :=
    if s.chat_histories c ≠ [] then pyLastSlice max_messages (s.chat_histories c)
    else []
  let r := s.get_messages max_messages false c.name
  (dedupMerge recent r.1, r.2)

/-- Python `str.title()` restricted to what the code feeds it (role strings):
the first letter of each alphabetic run is upper-cased, the rest lower-cased. -/
def pyTitle (s : String) : String :=
  String.mk (s.data.foldl
    (fun (acc : List Char × Bool) c =>
      if c.isAlpha then
        (acc.1 ++ [if acc.2 then c.toLower else c.toUpper], true)
      else (acc.1 ++ [c], false))
    ([], false)).1

/-- The text projection (lines 164-175): `"\n\n".join` of
`f"[{role.title()}]: {content}"`. -/
def formatText (msgs : List Message) : String :=
  String.intercalate "\n\n"
    (msgs.map fun m => "[" ++ pyTitle m.role ++ "]: " ++ m.content.toStr)

/-- One iteration of the image loop (lines 180-197): a string content is
kept when it is an `http` URL mentioning a recognised image extension, or an
existing path ending in one; a kept relative non-URL path is made absolute;
a truthy non-string content is kept as-is. -/
def imageStep (env : Env) (image_urls : List Content) (msg : Message) :
    List Content :=
  match msg.content with
  | .str s =>
    if ¬ (s = "") then
      if (pyStartsWith s "http"
            && imageExts.any fun e => pySubstr e (pyToLower s))
          || (env.pathExists s
            && imageExts.any fun e => pyEndsWith (pyToLower s) e) then
        image_urls ++
          [Content.str
            (if ¬ pyStartsWith s "http" && ¬ env.isabs s then env.abspath s
             else s)]
      else image_urls
    else image_urls
  | .obj shown t =>
    if t then image_urls ++ [Content.obj shown t] else image_urls

/-- The image projection (lines 177-199): fold `imageStep` over the merged
messages. -/
def formatImages (env : Env) (msgs : List Message) : List Content :=
  msgs.foldl (imageStep env) []

/-- The per-message HTML wrapper of lines 212-221 (an f-string interpolating
the formatted timestamp and the content). -/
def htmlWrap (formatted_time content : String) : String :=
  "\n                    <div class=\"message-wrapper\" style=\"margin: 10px 0; padding: 10px; border: 1px solid #eee; border-radius: 5px;\">\n                        <div class=\"message-timestamp\" style=\"color: #666; font-size: 0.8em; margin-bottom: 5px;\">\n                            "
    ++ formatted_time
    ++ "\n                        </div>\n                        <div class=\"message-content\">\n                            "
    ++ content
    ++ "\n                        </div>\n                    </div>\n                    "

/-- The HTML projection (lines 201-228): truthy string contents are wrapped
with a timestamp; the "no content" sentinel is returned when nothing was
wrapped. -/
def formatHtml (env : Env) (msgs : List Message) : String :=
  let html_contents := msgs.foldl
    (fun html_contents msg =>
      match msg.content with
      | .str s =>
        if ¬ (s = "") then html_contents ++ [htmlWrap (env.strftime msg.timestamp) s]
        else html_contents
      | .obj _ _ => html_contents)
    []
  if html_contents = [] then "<div class='no-content'>暂无HTML内容</div>"
  else String.intercalate "\n" html_contents

/-- The heterogeneous return value of `get_formatted_chat_history`: a string
for text, a list for images, a string for html, or Python `None`. -/
inductive Formatted
  | text (s : String)
  | images (l : List Content)
  | html (s : String)
  | none
deriving DecidableEq

/-- `GradioMessenger.get_formatted_chat_history` (lines 104-230).  For an
unknown category the code first checks `content_type not in
self.chat_histories`, and only then compares `content_type` against the three
known names — so those inner branches are dead and the result is `None`.  For
a known category the merged snapshot messages are projected according to the
category, with per-category sentinels when the merge is empty. -/
def GradioMessenger.get_formatted_chat_history (s : GradioMessenger)
    (env : Env) (max_messages : Nat) (content_type : String) :
    Formatted × GradioMessenger :=
  match catOf? content_type with
  | Option.none =>
    (if content_type = "text" then Formatted.text "暂无对话记录。"
     else if content_type = "image" then Formatted.images []
     else if content_type = "html" then
       Formatted.html "<div class='no-content'>暂无HTML内容xxxxx</div>"
     else Formatted.none, s)
  | some c =>
    let r := snapshotMessages s max_messages c
    let all_messages := r.1
    if all_messages = [] then
      (match c with
       | .text => Formatted.text "暂无对话记录。"
       | .image => Formatted.images []
       | .html => Formatted.html "<div class='no-content'>暂无HTML内容</div>",
       r.2)
    else
      (match c with
       | .text => Formatted.text (formatText all_messages)
       | .image => Formatted.images (formatImages env all_messages)
       | .html => Formatted.html (formatHtml env all_messages),
       r.2)

/-- One `send_message` call's arguments. -/
structure SendCall where
  role : String
  content : Content
  timestamp : Nat
  content_type : String

/-- The category a call's message is stored under (the fallback-normalised
`content_type`). -/
def targetCat (k : SendCall) : Category :=
  (catOf? k.content_type).getD Category.text

/-- The message dict a call constructs. -/
def callMessage (k : SendCall) : Message :=
  ⟨k.role, k.content, k.timestamp, targetCat k⟩

/-- Run a sequence of `send_message` calls. -/
def applySends (s : GradioMessenger) (calls : List SendCall) : GradioMessenger :=
  calls.foldl
    (fun s k => s.send_message k.role k.content k.timestamp k.content_type) s

/-- The messages a call sequence stores under category `c`, in insertion
order. -/
def sentFor (c : Category) (calls : List SendCall) : List Message :=
  (calls.filter fun k => targetCat k = c).map callMessage

/-- The last `n` entries of a list (all of it when it is shorter). -/
def lastN (n : Nat) (l : List α) : List α :=
  l.drop (l.length - n)

/-- First `k` elements of the infinite cyclic walk over `q` that pops the
front and re-pushes it at the tail (empty when `q` is empty) — the messages
collected by a `clear_queue = false` `getLoop`. -/
def cycleTake : List α → Nat → List α
  | _, 0 => []
  | [], _ + 1 => []
  | m :: rest, k + 1 => m :: cycleTake (rest ++ [m]) k

/-- The queue left behind by `k` pop-front/push-back steps. -/
def rotateSteps : List α → Nat → List α
  | q, 0 => q
  | [], _ + 1 => []
  | m :: rest, k + 1 => rotateSteps (rest ++ [m]) k

/-- All queues and histories empty. -/
def emptyBroker (s : GradioMessenger) : Prop :=
  ∀ c, s.message_queues c = [] ∧ s.chat_histories c = []

/-!  Embedding of `CustomWebToolkit.browser_simulation` (src/examples/run.py,
lines 355-434).  LLM calls, the browser and Python's `repr` are oracles. -/

/-- One `trajectory_info` dict appended to `self.history` per round. -/
structure TrajEntry where
  round : Nat
  observation : String
  thought : String
  action : String
  action_if_success : Bool
  info : Option String
  current_url : String
deriving DecidableEq

/-- The external world of one simulation run.  `plan0` is
`_task_planning(task_prompt, start_url)`; `observe` is what `_observe`
returns at a given round for the current plan and history; `act` is
`_act(action_code)`; `replan` is `_task_replanning`; `current_url` is
`browser.get_url()`; `final_answer` is `_get_final_answer` as a function of
the task and the accumulated history; `show_history` is Python's rendering of
a history slice inside an f-string; `history_window` is
`self.history_window`. -/
structure SimEnv where
  plan0 : String → String → String
  observe : Nat → String → List TrajEntry → String × String × String
  act : Nat → String → Bool × Option String
  replan : Nat → String → List TrajEntry → Bool × String
  current_url : Nat → String
  final_answer : String → List TrajEntry → String
  show_history : List TrajEntry → String
  history_window : Nat

/-- The stop test of the round loop: `if "stop" in action_code`. -/
def isStopAction (action_code : String) : Bool :=
  pySubstr "stop" action_code

/-- The `for i in range(round_limit)` loop of `browser_simulation`
(lines 378-422), structurally recursive on the number of remaining rounds.
Returns `(task_completed, history, detailed_plan)`. -/
def simLoop (env : SimEnv) : Nat → Nat → String → List TrajEntry →
    Bool × List TrajEntry × String
  | 0, _, plan, hist => (false, hist, plan)
  | n + 1, i, plan, hist =>
    let ob := env.observe i plan hist
    let action_code := ob.2.2
    if isStopAction action_code then
      (true,
       hist ++ [⟨i, ob.1, ob.2.1, action_code, true, Option.none,
         env.current_url i⟩],
       plan)
    else
      let a := env.act i action_code
      let hist' := hist ++
        [⟨i, ob.1, ob.2.1, action_code, a.1, a.2, env.current_url i⟩]
      let rp := env.replan i plan hist'
      simLoop env n (i + 1) (if rp.1 then rp.2 else plan) hist'

/-- The full run of the loop: `_reset()` empties the history, the plan comes
from `_task_planning`, rounds count from 0. -/
def simRun (env : SimEnv) (task_prompt start_url : String) (round_limit : Nat) :
    Bool × List TrajEntry × String :=
  simLoop env round_limit 0 (env.plan0 task_prompt start_url) []

/-- The `simulation_result` f-string built when the round limit is exhausted
(lines 424-428): it interpolates `self.history_window` and the slice
`self.history[-self.history_window:]`. -/
def unresolvedMessage (env : SimEnv) (hist : List TrajEntry) : String :=
  "\n                The task is not completed within the round limit. Please check the last round "
    ++ toString env.history_window
    ++ " information to see if there is any useful information:\n                <history>"
    ++ env.show_history (pyLastSlice env.history_window hist)
    ++ "</history>\n            "

/-- `CustomWebToolkit.browser_simulation` (lines 355-434): plan, loop, and
either the unresolved-result message or one final LLM synthesis over the full
trajectory. -/
def browser_simulation (env : SimEnv) (task_prompt start_url : String)
    (round_limit : Nat) : String :=
  let r := simRun env task_prompt start_url round_limit
  if r.1 = false then unresolvedMessage env r.2.1
  else env.final_answer task_prompt r.2.1

/-- The trajectory entry recorded by a non-stop round (the dict of lines
405-413). -/
def stepEntry (env : SimEnv) (i : Nat) (plan : String)
    (hist : List TrajEntry) : TrajEntry :=
  ⟨i, (env.observe i plan hist).1, (env.observe i plan hist).2.1,
   (env.observe i plan hist).2.2, (env.act i (env.observe i plan hist).2.2).1,
   (env.act i (env.observe i plan hist).2.2).2, env.current_url i⟩

/-- The trajectory entry recorded by a stop round (the dict of lines
388-396: `action_if_success = True`, `info = None`). -/
def stopEntry (env : SimEnv) (i : Nat) (plan : String)
    (hist : List TrajEntry) : TrajEntry :=
  ⟨i, (env.observe i plan hist).1, (env.observe i plan hist).2.1,
   (env.observe i plan hist).2.2, true, Option.none, env.current_url i⟩

/-- A concrete environment whose model asks to stop in round 0. -/
def simEnvStop : SimEnv :=
  ⟨fun _ _ => "plan", fun _ _ _ => ("o", "r", "stop()"),
   fun _ _ => (true, Option.none), fun _ _ _ => (false, ""),
   fun _ => "url", fun _ _ => "ANSWER", fun _ => "[]", 5⟩

/-- A concrete environment whose model never asks to stop. -/
def simEnvGo : SimEnv :=
  ⟨fun _ _ => "plan", fun _ _ _ => ("o", "r", "click_id(1)"),
   fun _ _ => (true, Option.none), fun _ _ _ => (false, ""),
   fun _ => "url", fun _ _ => "ANSWER", fun _ => "[]", 5⟩

/-!  Embedding of the truncated-action repair in `CustomWebToolkit._observe`
(src/examples/run.py, lines 185-203). -/

/-- Python's `\s` class (`str.strip()` also strips exactly these). -/
def pyWhitespace (c : Char) : Bool :=
  c = ' ' || c = '\t' || c = '\n' || c = '\r' || c = Char.ofNat 11 ||
    c = Char.ofNat 12

/-- Python `str.strip()`. -/
def pyStrip (s : String) : String :=
  String.mk (((s.data.dropWhile pyWhitespace).reverse.dropWhile
    pyWhitespace).reverse)

/-- Python `str.replace(pat, repl)` on character lists: leftmost,
non-overlapping.  `fuel` (the haystack length at the call site) bounds the
recursion. -/
def pyReplaceAux (pat repl : List Char) : Nat → List Char → List Char
  | 0, s => s
  | _ + 1, [] => []
  | fuel + 1, c :: rest =>
    if pat.isPrefixOf (c :: rest) then
      repl ++ pyReplaceAux pat repl fuel ((c :: rest).drop pat.length)
    else c :: pyReplaceAux pat repl fuel rest

/-- Python `str.replace(pat, repl)` for a non-empty `pat` (the only way the
code uses it). -/
def pyReplace (s pat repl : String) : String :=
  if pat.data = [] then s
  else String.mk (pyReplaceAux pat.data repl.data s.data.length s.data)

/-- The backquote character (used by the repair regex and the final
`.replace`). -/
def backquoteChar : Char := Char.ofNat 96

/-- The double-quote character. -/
def dquoteChar : Char := Char.ofNat 34

/-- Whether a character is one of the regex's `[`"]` delimiters. -/
def isDelimChar (c : Char) : Bool :=
  c = backquoteChar || c = dquoteChar

/-- Match the head of the repair regex
`"action_code"\s*:\s*[`"]` at the current position; on success return the
remaining characters (after the opening delimiter). -/
def matchHeadAt (cs : List Char) : Option (List Char) :=
  let lit := ("\"action_code\"").data
  if lit.isPrefixOf cs then
    match (cs.drop lit.length).dropWhile pyWhitespace with
    | ':' :: cs2 =>
      match cs2.dropWhile pyWhitespace with
      | d :: cs4 => if isDelimChar d then some cs4 else Option.none
      | [] => Option.none
    | _ => Option.none
  else Option.none

/-- The candidate decompositions of the capture group
`[^`"]*\([^)]*\)`: each `'('` inside the leading run of non-delimiter
characters yields the pair (characters before it, characters after it),
listed left to right. -/
def parenCandidates : List Char → List (List Char × List Char)
  | [] => []
  | c :: rest =>
    if isDelimChar c then []
    else
      let tail := (parenCandidates rest).map fun p => (c :: p.1, p.2)
      if c = '(' then ([], rest) :: tail else tail

/-- Attempt one candidate: after the `'('`, `[^)]*` greedily runs to the
first `')'`, which must be followed by a `[`"]` delimiter; on success return
the whole captured group. -/
def tryParen (A rest : List Char) : Option (List Char) :=
  let B := rest.takeWhile fun c => c ≠ ')'
  match rest.drop B.length with
  | ')' :: d :: _ =>
    if isDelimChar d then some (A ++ '(' :: (B ++ [')'])) else Option.none
  | _ => Option.none

/-- Greedy match of the capture group at the current position: the rightmost
viable `'('` wins (backtracking order of `[^`"]*`). -/
def matchCapture (cs : List Char) : Option (List Char) :=
  ((parenCandidates cs).reverse).findSome? fun p => tryParen p.1 p.2

/-- Full regex match attempt at the current position. -/
def regexSearchAt (cs : List Char) : Option (List Char) :=
  match matchHeadAt cs with
  | some rest => matchCapture rest
  | Option.none => Option.none

/-- `re.search` over the whole response: the leftmost position at which the
pattern matches, returning capture group 1. -/
def regexSearch : List Char → Option (List Char)
  | [] => Option.none
  | c :: rest =>
    match regexSearchAt (c :: rest) with
    | some g => some g
    | Option.none => regexSearch rest

/-- The recovery attempt of `_observe`: `re.search` of
`'"action_code"\s*:\s*[`"]([^`"]*\([^)]*\))[`"]'` over the raw response. -/
def searchActionCode (resp_content : String) : Option String :=
  (regexSearch resp_content.data).map String.mk

/-- Lines 185-203 of `_observe`: the truncation repair (unbalanced
parentheses → regex recovery → `fill_input_id` placeholder fallback),
followed by `action_code.replace("`", "").strip()`. -/
def repair_action_code (action_code resp_content : String) : String :=
  let ac :=
    if ¬ (action_code = "") ∧ pySubstr "(" action_code = true
        ∧ pySubstr ")" action_code = false then
      match searchActionCode resp_content with
      | some m => m
      | Option.none =>
        if pyStartsWith action_code "fill_input_id(" then
          let parts0 := action_code.data.takeWhile fun c => c ≠ ','
          if parts0.length < action_code.data.length then
            let id_part :=
              pyStrip (pyReplace (String.mk parts0) "fill_input_id(" "")
            "fill_input_id(" ++ id_part ++ ", 'Please fill the text here.')"
          else action_code
        else action_code
    else action_code
  pyStrip (pyReplace ac (String.mk [backquoteChar]) "")

/-!  Embedding of `validate_input` and the validation path of `run_owl`
(src/owl/webapp_zh.py, lines 304-316 and 417-432). -/

/-- `validate_input(question)`: false iff the question is empty or strips to
empty. -/
def validate_input (question : String) : Bool :=
  if question = "" || pyStrip question = "" then false else true

/-- Observable side effects of the validated branch of `run_owl` (environment
reload, dynamic import of `examples.<module>`, running the society, ...). -/
inductive RunEffect
  | loadEnv
  | importModule (name : String)
  | runSociety
deriving DecidableEq

/-- Everything `run_owl` does after validation succeeds (lines 434 onward):
dynamic imports, society construction and execution — external-framework
glue, kept opaque.  It may raise (`Except.error`) and performs effects. -/
structure RunOwlRest where
  rest : String → String →
    Except String ((String × String × String) × List RunEffect)

/-- `run_owl(question, example_module)` (lines 417-432): the invalid-input
path returns the inline error tuple with no effects; otherwise the opaque
validated branch runs. -/
def run_owl (k : RunOwlRest) (question example_module : String) :
    Except String ((String × String × String) × List RunEffect) :=
  if ¬ validate_input question then
    Except.ok (("请输入有效的问题", "0", "❌ 错误: 输入问题无效"), [])
  else k.rest question example_module

/-- A sample system environment for concrete evaluations: no path exists,
nothing is absolute, `abspath` is the identity, time renders to `""`. -/
def sampleEnv : Env :=
  ⟨fun _ => false, fun _ => false, fun s => s, fun _ => ""⟩

/-- A broker holding two distinct text messages, for concrete evaluations of
drain/peek behaviour. -/
def c2State : GradioMessenger :=
  (GradioMessenger.initial.send_message "u" (.str "a") 0 "text").send_message
    "u" (.str "b") 1 "text"

/-- 101 sends of pairwise-distinct text messages (distinct timestamps): the
history is capped at 100, the queue holds all 101. -/
def overflowCalls : List SendCall :=
  (List.range 101).map fun i => ⟨"u", .str "x", i, "text"⟩

/-!  ## Lemmas and claim theorems -/

theorem updateCat_apply (f : Category → List Message) (c : Category)
    (l : List Message) (c' : Category) :
    updateCat f c l c' = if c' = c then l else f c' := rfl

theorem lastN_of_le {l : List α} {n : Nat} (h : l.length ≤ n) :
    lastN n l = l := by
  simp [lastN, Nat.sub_eq_zero_of_le h]

theorem length_lastN (n : Nat) (l : List α) : (lastN n l).length ≤ n := by
  simp [lastN]; omega

theorem sendTrunc_eq_lastN (l : List Message) :
    (if l.length > 100 then l.drop (l.length - 100) else l) = lastN 100 l := by
  split
  · rfl
  · next hh => exact (lastN_of_le (by omega)).symm

theorem lastN_append_lastN (n : Nat) (l r : List α) :
    lastN n (lastN n l ++ r) = lastN n (l ++ r) := by
  by_cases h : l.length ≤ n
  · rw [lastN_of_le h]
  · push_neg at h
    have hl : (lastN n l).length = n := by simp [lastN]; omega
    unfold lastN
    rw [List.drop_append_eq_append_drop, List.drop_append_eq_append_drop]
    have e1 : (List.drop (l.length - n) l ++ r).length - n = r.length := by
      simp only [List.length_append, List.length_drop]
      omega
    rw [e1, List.drop_drop]
    have i1 : l.length - n + r.length = (l ++ r).length - n := by
      simp only [List.length_append]
      omega
    have i2 : r.length - (List.drop (l.length - n) l).length =
        (l ++ r).length - n - l.length := by
      simp only [List.length_append, List.length_drop]
      omega
    rw [i1, i2]

theorem applySends_append (s : GradioMessenger) (calls : List SendCall)
    (k : SendCall) :
    applySends s (calls ++ [k]) =
      (applySends s calls).send_message k.role k.content k.timestamp
        k.content_type := by
  simp [applySends, List.foldl_append]

theorem sentFor_append (c : Category) (calls : List SendCall) (k : SendCall) :
    sentFor c (calls ++ [k]) =
      sentFor c calls ++ (if targetCat k = c then [callMessage k] else []) := by
  simp only [sentFor, List.filter_append, List.map_append]
  congr 1
  split
  · next hk => simp [List.filter, hk]
  · next hk => simp [List.filter, hk]

theorem hist_applySends (calls : List SendCall) (c : Category) :
    (applySends GradioMessenger.initial calls).chat_histories c =
      lastN 100 (sentFor c calls) := by
  induction calls using List.reverseRecOn with
  | nil => simp [applySends, sentFor, GradioMessenger.initial, lastN]
  | append_singleton calls k ih =>
    rw [applySends_append, sentFor_append]
    show updateCat _ (targetCat k) _ c = _
    rw [updateCat_apply]
    by_cases hc : c = targetCat k
    · rw [if_pos hc, sendTrunc_eq_lastN]
      subst hc
      rw [show (catOf? k.content_type).getD Category.text = targetCat k
        from rfl]
      rw [ih, lastN_append_lastN, if_pos rfl]
      rfl
    · rw [if_neg hc, if_neg fun hh => hc hh.symm]
      simp [ih]

/-- C1: for every sequence of `send_message` calls (with no intervening
`get_messages`), each category's chat history is exactly the last 100
messages inserted into that category, in insertion order — so its length
never exceeds 100 and eviction is oldest-first. -/
theorem send_history_cap_fifo (calls : List SendCall) (c : Category) :
    ((applySends GradioMessenger.initial calls).chat_histories c).length ≤ 100 ∧
    (applySends GradioMessenger.initial calls).chat_histories c =
      lastN 100 (sentFor c calls) := by
  refine ⟨?_, hist_applySends calls c⟩
  rw [hist_applySends]
  exact length_lastN 100 _

/-- C10: for every `content_type` outside `{"text", "image", "html"}`,
`get_formatted_chat_history` returns `None` regardless of the broker state:
the sentinel branches nested under the unknown-category check can never
match. -/
theorem unknown_type_formatted_none (s : GradioMessenger) (env : Env)
    (max_messages : Nat) (content_type : String)
    (h : catOf? content_type = Option.none) :
    (s.get_formatted_chat_history env max_messages content_type).1 =
      Formatted.none := by
  have h1 : content_type ≠ "text" := by
    intro e; subst e; simp [catOf?] at h
  have h2 : content_type ≠ "image" := by
    intro e; subst e; simp [catOf?] at h
  have h3 : content_type ≠ "html" := by
    intro e; subst e; simp [catOf?] at h
  simp [GradioMessenger.get_formatted_chat_history, h, h1, h2, h3]

/-- Witness for the C10 theorem at `content_type = "video"`. -/
theorem unknown_type_formatted_none_witness :
    catOf? "video" = Option.none ∧
    (GradioMessenger.initial.get_formatted_chat_history sampleEnv 50
      "video").1 = Formatted.none :=
  ⟨rfl, unknown_type_formatted_none GradioMessenger.initial sampleEnv 50
    "video" rfl⟩

/-- C8: a question that is empty or strips to whitespace makes `run_owl`
return the inline error tuple — answer text, token count `"0"`, error status —
without raising and with no side effects (in particular, no module import). -/
theorem run_owl_rejects_blank (k : RunOwlRest) (question example_module : String)
    (h : question = "" ∨ pyStrip question = "") :
    run_owl k question example_module =
      Except.ok (("请输入有效的问题", "0", "❌ 错误: 输入问题无效"), []) := by
  have hv : validate_input question = false := by
    unfold validate_input
    rcases h with h | h <;> simp [h]
  simp [run_owl, hv]

/-- Witness for the C8 theorem on a whitespace-only question. -/
theorem run_owl_rejects_blank_witness :
    (" \t " = "" ∨ pyStrip " \t " = "") ∧
    run_owl ⟨fun _ _ => Except.error "unreachable"⟩ " \t " "run" =
      Except.ok (("请输入有效的问题", "0", "❌ 错误: 输入问题无效"), []) :=
  ⟨Or.inr (by decide),
   run_owl_rejects_blank ⟨fun _ _ => Except.error "unreachable"⟩ " \t " "run"
     (Or.inr (by decide))⟩

theorem getLoop_nil (cl : Bool) (mx fuel : Nat) (msgs : List Message) :
    getLoop cl mx fuel [] msgs = (msgs, []) := by
  cases fuel <;> rfl

theorem catOf?_name (c : Category) : catOf? c.name = some c := by
  cases c <;> rfl

theorem snapshot_of_empty (s : GradioMessenger) (h : emptyBroker s)
    (max_messages : Nat) (c : Category) :
    (snapshotMessages s max_messages c).1 = [] ∧
    emptyBroker (snapshotMessages s max_messages c).2 := by
  have hq := (h c).1
  have hh := (h c).2
  constructor
  · simp [snapshotMessages, GradioMessenger.get_messages, catOf?_name, hq, hh,
      getLoop_nil, dedupMerge, dedupStep]
  · intro c'
    simp only [snapshotMessages, GradioMessenger.get_messages, catOf?_name,
      hq, hh, getLoop_nil]
    constructor <;> simp [updateCat, hq, hh, (h c').1, (h c').2]

/-- C3: `clear_messages` empties every queue and history; and from any such
empty broker state, every `get_formatted_chat_history` call returns the
category's empty sentinel — the "no conversation yet" string for text, the
empty list for image, the "no HTML content" div for html — while leaving the
broker empty, so every subsequent call does the same. -/
theorem clear_then_snapshot_sentinels (s s' : GradioMessenger) (env : Env)
    (max_messages : Nat) (h : emptyBroker s') :
    emptyBroker s.clear_messages ∧
    (s'.get_formatted_chat_history env max_messages "text").1 =
      Formatted.text "暂无对话记录。" ∧
    (s'.get_formatted_chat_history env max_messages "image").1 =
      Formatted.images [] ∧
    (s'.get_formatted_chat_history env max_messages "html").1 =
      Formatted.html "<div class='no-content'>暂无HTML内容</div>" ∧
    emptyBroker (s'.get_formatted_chat_history env max_messages "text").2 ∧
    emptyBroker (s'.get_formatted_chat_history env max_messages "image").2 ∧
    emptyBroker (s'.get_formatted_chat_history env max_messages "html").2 := by
  refine ⟨fun c => ⟨rfl, rfl⟩, ?_, ?_, ?_, ?_, ?_, ?_⟩ <;>
    simp [GradioMessenger.get_formatted_chat_history,
      show catOf? "text" = some Category.text from rfl,
      show catOf? "image" = some Category.image from rfl,
      show catOf? "html" = some Category.html from rfl,
      (snapshot_of_empty s' h max_messages Category.text).1,
      (snapshot_of_empty s' h max_messages Category.image).1,
      (snapshot_of_empty s' h max_messages Category.html).1,
      (snapshot_of_empty s' h max_messages Category.text).2,
      (snapshot_of_empty s' h max_messages Category.image).2,
      (snapshot_of_empty s' h max_messages Category.html).2]

/-- Witness for the C3 theorem: clear a freshly initialised broker after one
send, then snapshot. -/
theorem clear_then_snapshot_sentinels_witness :
    emptyBroker ((GradioMessenger.initial.send_message "u" (.str "hi") 0
      "text").clear_messages) ∧
    (((GradioMessenger.initial.send_message "u" (.str "hi") 0
      "text").clear_messages).get_formatted_chat_history sampleEnv 50
      "text").1 = Formatted.text "暂无对话记录。" := by
  have h0 : emptyBroker ((GradioMessenger.initial.send_message "u" (.str "hi")
      0 "text").clear_messages) := fun c => ⟨rfl, rfl⟩
  exact ⟨h0,
    (clear_then_snapshot_sentinels GradioMessenger.initial _ sampleEnv 50
      h0).2.1⟩

theorem getLoop_false_spec (mx : Nat) :
    ∀ (k : Nat) (q msgs : List Message) (fuel : Nat),
      mx - msgs.length = k → k ≤ fuel →
      getLoop false mx fuel q msgs =
        (msgs ++ cycleTake q k, rotateSteps q k) := by
  intro k
  induction k with
  | zero =>
    intro q msgs fuel hk _
    cases q with
    | nil => rw [getLoop_nil]; simp [cycleTake, rotateSteps]
    | cons m rest =>
      cases fuel with
      | zero => simp [getLoop, cycleTake, rotateSteps]
      | succ f =>
        have : ¬ (msgs.length < mx) := by omega
        simp [getLoop, this, cycleTake, rotateSteps]
  | succ k ih =>
    intro q msgs fuel hk hf
    cases q with
    | nil => rw [getLoop_nil]; simp [cycleTake, rotateSteps]
    | cons m rest =>
      obtain ⟨f, rfl⟩ : ∃ f, fuel = f + 1 := ⟨fuel - 1, by omega⟩
      have hlt : msgs.length < mx := by omega
      show getLoop false mx (f + 1) (m :: rest) msgs = _
      rw [show getLoop false mx (f + 1) (m :: rest) msgs =
        (if msgs.length < mx then
          getLoop false mx f (rest ++ [m]) (msgs ++ [m])
        else (msgs, m :: rest)) from rfl]
      rw [if_pos hlt]
      rw [ih (rest ++ [m]) (msgs ++ [m]) f (by simp; omega) (by omega)]
      simp [cycleTake, rotateSteps]

theorem rotateSteps_perm : ∀ (k : Nat) (q : List α), (rotateSteps q k).Perm q := by
  intro k
  induction k with
  | zero =>
    intro q
    rw [show rotateSteps q 0 = q from by cases q <;> rfl]
  | succ k ih =>
    intro q
    cases q with
    | nil => exact List.Perm.refl _
    | cons m rest =>
      show (rotateSteps (rest ++ [m]) k).Perm (m :: rest)
      exact (ih (rest ++ [m])).trans (List.perm_append_singleton m rest)

theorem cycleTake_subset : ∀ (k : Nat) (q : List α), ∀ x ∈ cycleTake q k, x ∈ q := by
  intro k
  induction k with
  | zero => intro q x hx; simp [cycleTake] at hx
  | succ k ih =>
    intro q x hx
    cases q with
    | nil => simp [cycleTake] at hx
    | cons m rest =>
      rw [show cycleTake (m :: rest) (k + 1) = m :: cycleTake (rest ++ [m]) k
        from rfl] at hx
      rcases List.mem_cons.mp hx with rfl | hx
      · exact List.mem_cons_self _ _
      · have := ih (rest ++ [m]) x hx
        rcases List.mem_append.mp this with h | h
        · exact List.mem_cons_of_mem _ h
        · simp at h
          simp [h]

theorem cycleTake_length_le : ∀ (k : Nat) (q : List α),
    (cycleTake q k).length ≤ k := by
  intro k
  induction k with
  | zero => intro q; simp [cycleTake]
  | succ k ih =>
    intro q
    cases q with
    | nil => simp [cycleTake]
    | cons m rest =>
      rw [show cycleTake (m :: rest) (k + 1) = m :: cycleTake (rest ++ [m]) k
        from rfl]
      simpa using ih (rest ++ [m])

theorem cycleTake_covers : ∀ (q r : List α) (k : Nat), q.length ≤ k →
    cycleTake (q ++ r) k = q ++ cycleTake (r ++ q) (k - q.length) := by
  intro q
  induction q with
  | nil => intro r k _; simp
  | cons a q' ih =>
    intro r k hk
    obtain ⟨k', rfl⟩ : ∃ k', k = k' + 1 := ⟨k - 1, by simp at hk; omega⟩
    show cycleTake (a :: (q' ++ r)) (k' + 1) = _
    rw [show cycleTake (a :: (q' ++ r)) (k' + 1) =
      a :: cycleTake ((q' ++ r) ++ [a]) k' from rfl]
    rw [List.append_assoc, ih (r ++ [a]) k' (by simp at hk; omega)]
    simp

theorem mem_cycleTake_iff (q : List α) (k : Nat) (h : q.length ≤ k) (x : α) :
    x ∈ cycleTake q k ↔ x ∈ q := by
  constructor
  · exact cycleTake_subset k q x
  · intro hx
    have := cycleTake_covers q [] k h
    simp at this
    rw [this]
    exact List.mem_append.mpr (Or.inl hx)

theorem get_messages_peek (s : GradioMessenger) (mx : Nat) (ct : String)
    (c : Category) (hc : catOf? ct = some c) :
    (s.get_messages mx false ct).1 = cycleTake (s.message_queues c) mx ∧
    (s.get_messages mx false ct).2.message_queues c =
      rotateSteps (s.message_queues c) mx := by
  unfold GradioMessenger.get_messages
  simp only [hc]
  rw [getLoop_false_spec mx mx (s.message_queues c) []
    ((s.message_queues c).length + mx) (by simp) (by omega)]
  simp [updateCat]

/-- C2 (counterexample): on a broker holding two distinct text messages, a
peek (`get_messages` with `clear_queue = false`) of `max_count = 1` followed
by a second identical peek does not return the same set of messages — the
first peek rotates the queue, so the second returns the other message. -/
theorem peek_not_idempotent_counterexample :
    ¬ ((∀ m ∈ (c2State.get_messages 1 false "text").1,
          m ∈ ((c2State.get_messages 1 false "text").2.get_messages 1 false
            "text").1) ∧
       (∀ m ∈ ((c2State.get_messages 1 false "text").2.get_messages 1 false
            "text").1,
          m ∈ (c2State.get_messages 1 false "text").1)) := by
  decide

/-- C2 (amended): a peek returns at most `max_count` messages, each taken
from the named category's queue, and the queue keeps exactly the same
messages (a rotation, hence a permutation).  Two consecutive peeks return
the same set of messages provided `max_count` is at least the queue's length
(in particular for the default `max_messages = 50` with at most 50 queued);
for smaller `max_count` the second peek may return a different window. -/
theorem peek_bounded_requeue_idempotent (s : GradioMessenger) (mx : Nat)
    (ct : String) (c : Category) (hc : catOf? ct = some c) :
    (s.get_messages mx false ct).1.length ≤ mx ∧
    (∀ m ∈ (s.get_messages mx false ct).1, m ∈ s.message_queues c) ∧
    ((s.get_messages mx false ct).2.message_queues c).Perm
      (s.message_queues c) ∧
    ((s.message_queues c).length ≤ mx →
      (s.get_messages mx false ct).1 ⊆
        ((s.get_messages mx false ct).2.get_messages mx false ct).1 ∧
      ((s.get_messages mx false ct).2.get_messages mx false ct).1 ⊆
        (s.get_messages mx false ct).1) := by
  obtain ⟨h1, h2⟩ := get_messages_peek s mx ct c hc
  obtain ⟨h1', _⟩ := get_messages_peek (s.get_messages mx false ct).2 mx ct c hc
  refine ⟨?_, ?_, ?_, ?_⟩
  · rw [h1]; exact cycleTake_length_le mx _
  · rw [h1]; exact cycleTake_subset mx _
  · rw [h2]; exact rotateSteps_perm mx _
  · intro hlen
    have hr : (rotateSteps (s.message_queues c) mx).length =
        (s.message_queues c).length := (rotateSteps_perm mx _).length_eq
    constructor <;> intro m hm
    · rw [h1', h2]
      rw [h1] at hm
      rw [mem_cycleTake_iff _ _ (by omega)]
      exact ((rotateSteps_perm mx _).mem_iff).mpr
        ((mem_cycleTake_iff _ _ hlen m).mp hm)
    · rw [h1, mem_cycleTake_iff _ _ hlen]
      rw [h1', h2, mem_cycleTake_iff _ _ (by omega)] at hm
      exact ((rotateSteps_perm mx _).mem_iff).mp hm

/-- Witness for the amended C2 theorem on the two-message broker with
`max_count = 2` (at least the queue length, so the peeks agree). -/
theorem peek_bounded_requeue_idempotent_witness :
    catOf? "text" = some Category.text ∧
    (c2State.message_queues Category.text).length ≤ 2 ∧
    ((c2State.get_messages 2 false "text").1 ⊆
      ((c2State.get_messages 2 false "text").2.get_messages 2 false
        "text").1 ∧
     ((c2State.get_messages 2 false "text").2.get_messages 2 false
        "text").1 ⊆ (c2State.get_messages 2 false "text").1) :=
  ⟨rfl, by decide,
   (peek_bounded_requeue_idempotent c2State 2 "text" Category.text
     rfl).2.2.2 (by decide)⟩

/-- Every stored message carries the category it is stored under. -/
def wfBroker (s : GradioMessenger) : Prop :=
  ∀ c, (∀ m ∈ s.message_queues c, m.content_type = c) ∧
    (∀ m ∈ s.chat_histories c, m.content_type = c)

theorem wf_send (s : GradioMessenger) (h : wfBroker s) (r : String)
    (co : Content) (ts : Nat) (ct : String) :
    wfBroker (s.send_message r co ts ct) := by
  intro c
  show (∀ m ∈ updateCat _ _ _ c, m.content_type = c) ∧
    (∀ m ∈ updateCat _ _ _ c, m.content_type = c)
  rw [updateCat_apply, updateCat_apply]
  constructor
  · intro m hm
    split at hm
    · next hc =>
      subst hc
      rcases List.mem_append.mp hm with hm | hm
      · exact (h _).1 m hm
      · simp at hm
        simp [hm]
    · exact (h c).1 m hm
  · intro m hm
    split at hm
    · next hc =>
      subst hc
      rw [sendTrunc_eq_lastN] at hm
      have hm' : m ∈ s.chat_histories ((catOf? ct).getD Category.text) ++
          [⟨r, co, ts, (catOf? ct).getD Category.text⟩] :=
        List.mem_of_mem_drop hm
      rcases List.mem_append.mp hm' with hm' | hm'
      · exact (h _).2 m hm'
      · simp at hm'
        simp [hm']
    · exact (h c).2 m hm

theorem wf_applySends_of (calls : List SendCall) :
    ∀ s, wfBroker s → wfBroker (applySends s calls) := by
  induction calls with
  | nil => intro s hs; exact hs
  | cons k calls ih =>
    intro s hs
    exact ih _ (wf_send s hs k.role k.content k.timestamp k.content_type)

theorem wf_applySends (calls : List SendCall) :
    wfBroker (applySends GradioMessenger.initial calls) :=
  wf_applySends_of calls _ (fun _ =>
    ⟨fun _ hm => absurd hm (List.not_mem_nil _),
     fun _ hm => absurd hm (List.not_mem_nil _)⟩)

theorem dedup_fold_subset :
    ∀ (l : List Message) (acc : List Message × List String),
      ∀ x ∈ (l.foldl dedupStep acc).1, x ∈ acc.1 ∨ x ∈ l := by
  intro l
  induction l with
  | nil => intro acc x hx; exact Or.inl hx
  | cons m l ih =>
    intro acc x hx
    rcases ih (dedupStep acc m) x hx with hx | hx
    · unfold dedupStep at hx
      split at hx
      · exact Or.inl hx
      · rcases List.mem_append.mp hx with hx | hx
        · exact Or.inl hx
        · simp at hx
          simp [hx]
    · simp [hx]

theorem dedupMerge_subset (recent news : List Message) :
    ∀ x ∈ dedupMerge recent news, x ∈ recent ∨ x ∈ news := by
  intro x hx
  rcases dedup_fold_subset news _ x hx with hx | hx
  · rcases dedup_fold_subset recent ([], []) x hx with hx | hx
    · simp at hx
    · exact Or.inl hx
  · exact Or.inr hx

theorem pyLastSlice_subset (k : Nat) (l : List α) :
    ∀ x ∈ pyLastSlice k l, x ∈ l := by
  intro x hx
  unfold pyLastSlice at hx
  split at hx
  · exact hx
  · exact List.mem_of_mem_drop hx

theorem snapshot_members (s : GradioMessenger) (mx : Nat) (c : Category) :
    ∀ m ∈ (snapshotMessages s mx c).1,
      m ∈ s.chat_histories c ∨ m ∈ s.message_queues c := by
  intro m hm
  unfold snapshotMessages at hm
  rcases dedupMerge_subset _ _ m hm with hm | hm
  · split at hm
    · exact Or.inl (pyLastSlice_subset mx _ m hm)
    · simp at hm
  · rw [(get_messages_peek s mx c.name c (catOf?_name c)).1] at hm
    exact Or.inr (cycleTake_subset mx _ m hm)

/-- C4: snapshots never leak across categories.  For every send-only
sequence, every message in a category's merged snapshot carries that
category; and a `send_message` with an unrecognised `content_type` always
succeeds, storing its message under `"text"` and touching no other
category. -/
theorem snapshot_respects_category (calls : List SendCall) (c : Category)
    (mx : Nat) (s₀ : GradioMessenger) (r : String) (co : Content) (ts : Nat)
    (ct : String) (hct : catOf? ct = Option.none) :
    (∀ m ∈ (snapshotMessages (applySends GradioMessenger.initial calls) mx
        c).1, m.content_type = c) ∧
    (s₀.send_message r co ts ct).message_queues Category.text =
      s₀.message_queues Category.text ++ [⟨r, co, ts, Category.text⟩] ∧
    (∀ c', c' ≠ Category.text →
      (s₀.send_message r co ts ct).message_queues c' =
        s₀.message_queues c' ∧
      (s₀.send_message r co ts ct).chat_histories c' =
        s₀.chat_histories c') := by
  refine ⟨?_, ?_, ?_⟩
  · intro m hm
    have hwf := wf_applySends calls
    rcases snapshot_members _ mx c m hm with hm | hm
    · exact (hwf c).2 m hm
    · exact (hwf c).1 m hm
  · show updateCat _ ((catOf? ct).getD Category.text) _ Category.text = _
    rw [hct]
    rfl
  · intro c' hc'
    constructor
    · show updateCat _ ((catOf? ct).getD Category.text) _ c' = _
      rw [hct, updateCat_apply]
      simp only [Option.getD_none]
      rw [if_neg hc']
    · show updateCat _ ((catOf? ct).getD Category.text) _ c' = _
      rw [hct, updateCat_apply]
      simp only [Option.getD_none]
      rw [if_neg hc']

/-- Witness for the C4 theorem: one send with the unrecognised category
`"weird"` lands in the text queue. -/
theorem snapshot_respects_category_witness :
    catOf? "weird" = Option.none ∧
    (GradioMessenger.initial.send_message "u" (.str "a") 0
      "weird").message_queues Category.text =
      GradioMessenger.initial.message_queues Category.text ++
        [⟨"u", .str "a", 0, Category.text⟩] :=
  ⟨rfl,
   (snapshot_respects_category [] Category.text 50 GradioMessenger.initial
     "u" (.str "a") 0 "weird" rfl).2.1⟩

theorem dedup_fold_skip :
    ∀ (l : List Message) (acc : List Message × List String),
      (∀ x ∈ l, x.content.toStr ∈ acc.2) → l.foldl dedupStep acc = acc := by
  intro l
  induction l with
  | nil => intro acc _; rfl
  | cons m l ih =>
    intro acc hacc
    have hstep : dedupStep acc m = acc := by
      unfold dedupStep
      rw [if_pos (hacc m (List.mem_cons_self m l))]
    show List.foldl dedupStep (dedupStep acc m) l = acc
    rw [hstep]
    exact ih acc fun x hx => hacc x (List.mem_cons_of_mem m hx)

/-- C5: on a broker that received an image message naming a nonexistent local
path `p` and an image message with an `http` URL `u` mentioning a recognised
image extension, the image snapshot excludes `p` and returns exactly `[u]`,
verbatim. -/
theorem image_snapshot_filters_invalid_paths (env : Env) (mx ts ts' : Nat)
    (r r' p u : String)
    (hpe : env.pathExists p = false)
    (hp : pyStartsWith p "http" = false)
    (hu : pyStartsWith u "http" = true)
    (hext : (imageExts.any fun e => pySubstr e (pyToLower u)) = true)
    (hmx : 2 ≤ mx) :
    (GradioMessenger.get_formatted_chat_history
      ((GradioMessenger.initial.send_message r (.str p) ts
        "image").send_message r' (.str u) ts' "image") env mx "image").1 =
      Formatted.images [Content.str u] := by
  set s5 := (GradioMessenger.initial.send_message r (.str p) ts
    "image").send_message r' (.str u) ts' "image" with hs5
  have hpu : p ≠ u := by
    intro e
    rw [e, hu] at hp
    exact absurd hp (by simp)
  have hu0 : ¬ (u = "") := by
    intro e
    rw [e] at hu
    exact absurd hu (by decide)
  set mp : Message := ⟨r, .str p, ts, Category.image⟩ with hmp
  set mu : Message := ⟨r', .str u, ts', Category.image⟩ with hmu
  have hq : s5.message_queues Category.image = [mp, mu] := rfl
  have hh : s5.chat_histories Category.image = [mp, mu] := rfl
  have hrecent : pyLastSlice mx (s5.chat_histories Category.image) =
      [mp, mu] := by
    rw [hh]
    unfold pyLastSlice
    rw [if_neg (by omega)]
    simp only [List.length_cons, List.length_nil]
    rw [show 0 + 1 + 1 - mx = 0 from by omega]
    rfl
  have hnews := (get_messages_peek s5 mx "image" Category.image rfl).1
  rw [hq] at hnews
  have hinner : List.foldl dedupStep ([], []) [mp, mu] =
      ([mp, mu], [p, u]) := by
    simp [dedupStep, Content.toStr, hpu.symm]
  have hsnap : (snapshotMessages s5 mx Category.image).1 = [mp, mu] := by
    unfold snapshotMessages
    rw [show Category.image.name = "image" from rfl]
    simp only [hh]
    rw [if_pos (by simp)]
    show dedupMerge (pyLastSlice mx (s5.chat_histories Category.image))
      (s5.get_messages mx false "image").1 = _
    rw [hrecent, hnews]
    unfold dedupMerge
    rw [hinner, dedup_fold_skip _ _ ?side]
    case side =>
      intro x hx
      have hx2 := cycleTake_subset mx _ x hx
      simp only [List.mem_cons, List.not_mem_nil, or_false] at hx2
      rcases hx2 with rfl | rfl
      · simp [Content.toStr]
      · simp [Content.toStr]
  have e1 : imageStep env [] mp = [] := by
    unfold imageStep
    show (if ¬ (p = "") then _ else _) = _
    by_cases hp0 : p = ""
    · rw [if_neg (by simp [hp0])]
    · rw [if_pos hp0, if_neg (by rw [hp, hpe]; simp)]
  have e2 : imageStep env [] mu = [Content.str u] := by
    unfold imageStep
    show (if ¬ (u = "") then _ else _) = _
    rw [if_pos hu0, if_pos (by rw [hu, hext]; simp)]
    rw [show (¬ pyStartsWith u "http" && ¬ env.isabs u) = false from by
      rw [hu]; simp]
    simp
  have himg : formatImages env [mp, mu] = [Content.str u] := by
    unfold formatImages
    simp only [List.foldl_cons, List.foldl_nil, e1]
    exact e2
  show (GradioMessenger.get_formatted_chat_history s5 env mx "image").1 = _
  unfold GradioMessenger.get_formatted_chat_history
  rw [show catOf? "image" = some Category.image from rfl]
  simp only [hsnap]
  rw [if_neg (by simp)]
  simp [himg]

/-- Witness for the C5 theorem with a concrete missing path and URL. -/
theorem image_snapshot_filters_invalid_paths_witness :
    sampleEnv.pathExists "files/missing.png" = false ∧
    pyStartsWith "files/missing.png" "http" = false ∧
    pyStartsWith "http://example.com/a.png" "http" = true ∧
    (imageExts.any fun e => pySubstr e (pyToLower "http://example.com/a.png"))
      = true ∧
    (GradioMessenger.get_formatted_chat_history
      ((GradioMessenger.initial.send_message "u" (.str "files/missing.png") 0
        "image").send_message "a" (.str "http://example.com/a.png") 1 "image")
      sampleEnv 50 "image").1 =
      Formatted.images [Content.str "http://example.com/a.png"] :=
  ⟨rfl, by decide, by decide, by decide,
   image_snapshot_filters_invalid_paths sampleEnv 50 0 1 "u" "a"
     "files/missing.png" "http://example.com/a.png" rfl (by decide) (by decide)
     (by decide) (by omega)⟩

set_option maxRecDepth 100000

/-- C9: `get_messages` appends returned messages that are absent from the
history without re-applying the 100-entry cap, so a history can exceed 100
entries: after 101 distinct sends (history capped to the last 100, all 101
queued) one draining `get_messages` finds the evicted first message absent
and re-appends it, leaving a 101-entry history. -/
theorem get_messages_overflows_history_cap :
    (((applySends GradioMessenger.initial overflowCalls).get_messages 101 true
      "text").2.chat_histories Category.text).length = 101 ∧
    100 <
      (((applySends GradioMessenger.initial overflowCalls).get_messages 101
        true "text").2.chat_histories Category.text).length := by
  constructor <;> decide

theorem simLoop_succ_stop (env : SimEnv) (n i : Nat) (plan : String)
    (hist : List TrajEntry)
    (h : isStopAction (env.observe i plan hist).2.2 = true) :
    simLoop env (n + 1) i plan hist =
      (true, hist ++ [stopEntry env i plan hist], plan) := by
  simp [simLoop, h, stopEntry]

theorem simLoop_succ_go (env : SimEnv) (n i : Nat) (plan : String)
    (hist : List TrajEntry)
    (h : isStopAction (env.observe i plan hist).2.2 = false) :
    simLoop env (n + 1) i plan hist =
      simLoop env n (i + 1)
        (if (env.replan i plan (hist ++ [stepEntry env i plan hist])).1 then
          (env.replan i plan (hist ++ [stepEntry env i plan hist])).2
         else plan)
        (hist ++ [stepEntry env i plan hist]) := by
  simp [simLoop, h, stepEntry]

theorem simLoop_spec (env : SimEnv) :
    ∀ (n i : Nat) (plan : String) (hist : List TrajEntry),
      ((simLoop env n i plan hist).1 = true →
        ∃ pre e, (simLoop env n i plan hist).2.1 = hist ++ pre ++ [e] ∧
          pre.length + 1 ≤ n ∧
          (∀ x ∈ pre, isStopAction x.action = false) ∧
          isStopAction e.action = true ∧ e.action_if_success = true ∧
          e.info = Option.none) ∧
      ((simLoop env n i plan hist).1 = false →
        ∃ new, (simLoop env n i plan hist).2.1 = hist ++ new ∧
          new.length = n ∧ ∀ x ∈ new, isStopAction x.action = false) := by
  intro n
  induction n with
  | zero =>
    intro i plan hist
    constructor
    · intro h
      exact absurd h (by simp [simLoop])
    · intro _
      exact ⟨[], by simp [simLoop], rfl, by simp⟩
  | succ n ih =>
    intro i plan hist
    by_cases hstop : isStopAction (env.observe i plan hist).2.2 = true
    · rw [simLoop_succ_stop env n i plan hist hstop]
      constructor
      · intro _
        refine ⟨[], stopEntry env i plan hist, by simp,
          by simp only [List.length_nil]; omega, by simp, ?_, rfl, rfl⟩
        exact hstop
      · intro h
        simp at h
    · have hstop' : isStopAction (env.observe i plan hist).2.2 = false := by
        revert hstop
        cases isStopAction (env.observe i plan hist).2.2 <;> simp
      rw [simLoop_succ_go env n i plan hist hstop']
      obtain ⟨ihT, ihF⟩ := ih (i + 1)
        (if (env.replan i plan (hist ++ [stepEntry env i plan hist])).1 then
          (env.replan i plan (hist ++ [stepEntry env i plan hist])).2
         else plan)
        (hist ++ [stepEntry env i plan hist])
      constructor
      · intro h
        obtain ⟨pre, e, h1, h2, h3, h4, h5, h6⟩ := ihT h
        refine ⟨stepEntry env i plan hist :: pre, e, ?_,
          by simp only [List.length_cons]; omega, ?_, h4, h5, h6⟩
        · rw [h1]
          simp
        · intro x hx
          rcases List.mem_cons.mp hx with rfl | hx
          · exact hstop'
          · exact h3 x hx
      · intro h
        obtain ⟨new, h1, h2, h3⟩ := ihF h
        refine ⟨stepEntry env i plan hist :: new, ?_, by simp [h2], ?_⟩
        · rw [h1]
          simp
        · intro x hx
          rcases List.mem_cons.mp hx with rfl | hx
          · exact hstop'
          · exact h3 x hx

/-- C6: `browser_simulation` records at most `round_limit` trajectory
entries.  It completes early iff some observed action contains the stop
signal: in that case all earlier entries are non-stop, the final entry is the
successful stop entry, and the result is the final LLM synthesis over the
full trajectory; otherwise it runs exactly `round_limit` rounds, none of
which produced a stop action, and the result is the unresolved-result message
built from the recent trajectory window. -/
theorem browser_simulation_round_limit (env : SimEnv) (task url : String)
    (limit : Nat) :
    (simRun env task url limit).2.1.length ≤ limit ∧
    ((simRun env task url limit).1 = true →
      (∃ e, (simRun env task url limit).2.1.getLast? = some e ∧
        isStopAction e.action = true ∧ e.action_if_success = true ∧
        e.info = Option.none) ∧
      (∀ x ∈ (simRun env task url limit).2.1.dropLast,
        isStopAction x.action = false) ∧
      browser_simulation env task url limit =
        env.final_answer task (simRun env task url limit).2.1) ∧
    ((simRun env task url limit).1 = false →
      (simRun env task url limit).2.1.length = limit ∧
      (∀ x ∈ (simRun env task url limit).2.1, isStopAction x.action = false) ∧
      browser_simulation env task url limit =
        unresolvedMessage env (simRun env task url limit).2.1) := by
  obtain ⟨hT, hF⟩ := simLoop_spec env limit 0 (env.plan0 task url) []
  have hrw : simRun env task url limit =
      simLoop env limit 0 (env.plan0 task url) [] := rfl
  by_cases hc : (simRun env task url limit).1 = true
  · obtain ⟨pre, e, h1, h2, h3, h4, h5, h6⟩ := hT (by rw [← hrw]; exact hc)
    rw [← hrw] at h1
    simp only [List.nil_append] at h1
    refine ⟨?_, ?_, ?_⟩
    · rw [h1]
      simp only [List.length_append, List.length_cons, List.length_nil]
      omega
    · intro _
      refine ⟨⟨e, ?_, h4, h5, h6⟩, ?_, ?_⟩
      · rw [h1]
        exact List.getLast?_concat pre
      · intro x hx
        rw [h1, List.dropLast_concat] at hx
        exact h3 x hx
      · simp [browser_simulation, hc]
    · intro hcf
      rw [hc] at hcf
      exact absurd hcf (by simp)
  · have hcf : (simRun env task url limit).1 = false := by
      revert hc
      cases (simRun env task url limit).1 <;> simp
    obtain ⟨new, h1, h2, h3⟩ := hF (by rw [← hrw]; exact hcf)
    rw [← hrw] at h1
    simp only [List.nil_append] at h1
    refine ⟨?_, ?_, ?_⟩
    · rw [h1, h2]
    · intro hct
      exact absurd hct (by simp [hcf])
    · intro _
      exact ⟨by rw [h1, h2], fun x hx => h3 x (by rwa [h1] at hx),
        by simp [browser_simulation, hcf]⟩

/-- Witness for the C6 theorem: an environment that stops in round 0 and one
that never produces a stop action. -/
theorem browser_simulation_round_limit_witness :
    ((simRun simEnvStop "t" "u" 3).1 = true ∧
      browser_simulation simEnvStop "t" "u" 3 =
        simEnvStop.final_answer "t" (simRun simEnvStop "t" "u" 3).2.1) ∧
    ((simRun simEnvGo "t" "u" 2).1 = false ∧
      (simRun simEnvGo "t" "u" 2).2.1.length = 2 ∧
      browser_simulation simEnvGo "t" "u" 2 =
        unresolvedMessage simEnvGo (simRun simEnvGo "t" "u" 2).2.1) :=
  ⟨⟨by decide,
    ((browser_simulation_round_limit simEnvStop "t" "u" 3).2.1
      (by decide)).2.2⟩,
   ⟨by decide,
    ((browser_simulation_round_limit simEnvGo "t" "u" 2).2.2 (by decide)).1,
    ((browser_simulation_round_limit simEnvGo "t" "u" 2).2.2
      (by decide)).2.2⟩⟩

theorem takeWhile_length_lt_of_mem {c : Char} :
    ∀ (l : List Char), c ∈ l →
      (l.takeWhile fun x => x ≠ c).length < l.length := by
  intro l
  induction l with
  | nil => intro h; simp at h
  | cons a t ih =>
    intro h
    by_cases hac : a = c
    · subst hac
      rw [List.takeWhile_cons]
      simp
    · rw [List.takeWhile_cons, if_pos (by simp [hac])]
      have hct : c ∈ t := by
        rcases List.mem_cons.mp h with h | h
        · exact absurd h.symm hac
        · exact h
      simpa using ih hct

theorem pyReplaceAux_single (ch : Char) :
    ∀ (fuel : Nat) (s : List Char), s.length ≤ fuel →
      pyReplaceAux [ch] [] fuel s = s.filter fun c => c ≠ ch := by
  intro fuel
  induction fuel with
  | zero =>
    intro s hs
    have hnil : s = [] := List.length_eq_zero.mp (by omega)
    subst hnil
    rfl
  | succ fuel ih =>
    intro s hs
    cases s with
    | nil => rfl
    | cons c rest =>
      have hstep : pyReplaceAux [ch] [] (fuel + 1) (c :: rest) =
          if [ch].isPrefixOf (c :: rest) = true then
            [] ++ pyReplaceAux [ch] [] fuel ((c :: rest).drop [ch].length)
          else c :: pyReplaceAux [ch] [] fuel rest := rfl
      have hpre : [ch].isPrefixOf (c :: rest) = (ch == c) := by
        cases h : (ch == c) <;> simp [List.isPrefixOf, h]
      rw [hstep, hpre]
      by_cases hc : ch = c
      · subst hc
        rw [if_pos (by simp)]
        rw [show (ch :: rest).drop [ch].length = rest from rfl]
        rw [ih rest (by simpa using hs)]
        rw [List.filter_cons, if_neg (by simp)]
        rfl
      · rw [if_neg (by simp [hc])]
        rw [ih rest (by simpa using hs)]
        rw [List.filter_cons, if_pos (by simp [Ne.symm hc])]

theorem pyReplace_single (ch : Char) (s : String) :
    pyReplace s (String.mk [ch]) "" =
      String.mk (s.data.filter fun c => c ≠ ch) := by
  unfold pyReplace
  rw [if_neg (by simp)]
  rw [pyReplaceAux_single ch s.data.length s.data (Nat.le_refl _)]

theorem pyStrip_sandwich (c d : Char) (l : List Char)
    (hc : pyWhitespace c = false) (hd : pyWhitespace d = false) :
    pyStrip (String.mk (c :: (l ++ [d]))) = String.mk (c :: (l ++ [d])) := by
  unfold pyStrip
  rw [show (String.mk (c :: (l ++ [d]))).data = c :: (l ++ [d]) from rfl]
  rw [List.dropWhile_cons, if_neg (by simp [hc])]
  rw [show (c :: (l ++ [d])).reverse = d :: (l.reverse ++ [c]) from by
    simp]
  rw [List.dropWhile_cons, if_neg (by simp [hd])]
  rw [show (d :: (l.reverse ++ [c])).reverse = c :: (l ++ [d]) from by
    simp]

/-- C7 (counterexample): the truncated action `"fill_input_id(3"` (an opening
parenthesis, no closing one, cut before the comma) with an empty raw response
satisfies every condition of the claim — regex recovery fails and the action
is a `fill_input_id` action — yet `_observe` leaves it unchanged instead of
rewriting it to a placeholder fill. -/
theorem observe_repair_counterexample :
    pySubstr "(" "fill_input_id(3" = true ∧
    pySubstr ")" "fill_input_id(3" = false ∧
    searchActionCode "" = Option.none ∧
    pyStartsWith "fill_input_id(3" "fill_input_id(" = true ∧
    repair_action_code "fill_input_id(3" "" = "fill_input_id(3" ∧
    pySubstr "Please fill the text here."
      (repair_action_code "fill_input_id(3" "") = false := by
  decide

/-- C7 (amended): when the model's `action_code` contains `(` but no `)`
(truncated response), the regex recovery over the raw response is attempted;
if it fails and the action is a `fill_input_id` action whose comma was
emitted (the fill-text argument was started), the action is rewritten to a
`fill_input_id` call with the placeholder fill text, so the round still gets
an executable action; a `fill_input_id` action truncated before its comma is
left as is. -/
theorem observe_repair_fill_placeholder (ac resp : String)
    (h1 : pySubstr "(" ac = true) (h2 : pySubstr ")" ac = false)
    (h3 : searchActionCode resp = Option.none)
    (h4 : pyStartsWith ac "fill_input_id(" = true)
    (h5 : ',' ∈ ac.data) :
    ∃ idp, repair_action_code ac resp =
      "fill_input_id(" ++ idp ++ ", 'Please fill the text here.')" := by
  have hne : ¬ (ac = "") := by
    intro e
    rw [e] at h1
    exact absurd h1 (by decide)
  have hcomma : (ac.data.takeWhile fun c => c ≠ ',').length <
      ac.data.length := takeWhile_length_lt_of_mem ac.data h5
  have hbranch : repair_action_code ac resp =
      pyStrip (pyReplace
        ("fill_input_id(" ++
          pyStrip (pyReplace
            (String.mk (ac.data.takeWhile fun c => c ≠ ','))
            "fill_input_id(" "") ++
          ", 'Please fill the text here.')")
        (String.mk [backquoteChar]) "") := by
    unfold repair_action_code
    rw [if_pos ⟨hne, h1, h2⟩, h3]
    rw [if_pos h4, if_pos hcomma]
  set idp0 := pyStrip (pyReplace
    (String.mk (ac.data.takeWhile fun c => c ≠ ','))
    "fill_input_id(" "") with hidp0
  rw [hbranch, pyReplace_single]
  set P : Char → Bool := fun c => c ≠ backquoteChar with hP
  have hdata : ("fill_input_id(" ++ idp0 ++
      ", 'Please fill the text here.')").data =
      "fill_input_id(".data ++ idp0.data ++
        ", 'Please fill the text here.')".data := by
    rw [String.data_append, String.data_append]
  rw [hdata, List.filter_append, List.filter_append]
  have hfpre : "fill_input_id(".data.filter P = "fill_input_id(".data := by
    rw [hP]; decide
  have hfsuf : ", 'Please fill the text here.')".data.filter P =
      ", 'Please fill the text here.')".data := by
    rw [hP]; decide
  rw [hfpre, hfsuf]
  refine ⟨String.mk (idp0.data.filter P), ?_⟩
  have hshape : "fill_input_id(".data ++ idp0.data.filter P ++
      ", 'Please fill the text here.')".data =
      'f' :: (("ill_input_id(".data ++ idp0.data.filter P ++
        ", 'Please fill the text here.'".data) ++ [')']) := by
    rw [show "fill_input_id(".data = 'f' :: "ill_input_id(".data from by
      decide]
    rw [show ", 'Please fill the text here.')".data =
      ", 'Please fill the text here.'".data ++ [')'] from by decide]
    simp
  rw [hshape, pyStrip_sandwich 'f' ')' _ (by decide) (by decide)]
  show String.mk ('f' :: (("ill_input_id(".data ++ idp0.data.filter P ++
      ", 'Please fill the text here.'".data) ++ [')'])) =
    String.mk (("fill_input_id(".data ++ idp0.data.filter P) ++
      ", 'Please fill the text here.')".data)
  apply congrArg
  rw [show "fill_input_id(".data = 'f' :: "ill_input_id(".data from by
    decide]
  rw [show ", 'Please fill the text here.')".data =
    ", 'Please fill the text here.'".data ++ [')'] from by decide]
  simp

/-- Witness for the amended C7 theorem: a truncated fill action whose comma
was emitted is repaired to the placeholder call. -/
theorem observe_repair_fill_placeholder_witness :
    pySubstr "(" "fill_input_id(5, some te" = true ∧
    pySubstr ")" "fill_input_id(5, some te" = false ∧
    searchActionCode "" = Option.none ∧
    pyStartsWith "fill_input_id(5, some te" "fill_input_id(" = true ∧
    ',' ∈ "fill_input_id(5, some te".data ∧
    ∃ idp, repair_action_code "fill_input_id(5, some te" "" =
      "fill_input_id(" ++ idp ++ ", 'Please fill the text here.')" :=
  ⟨by decide, by decide, rfl, by decide, by decide,
   observe_repair_fill_placeholder "fill_input_id(5, some te" "" (by decide)
     (by decide) rfl (by decide) (by decide)⟩

end Owl
